import Mathlib

/-!
Verification of the ai-news-collector pipeline core: data model, relevance
filter, deduplication, the Reddit collector's failure handling, the LLM
enrichment step (`process_item`) with its tenacity retry wrapper, and the
batch enrichment / ranking step (`process_batch`).

Each definition is a shallow embedding of the corresponding Python code in
`src/collector.py` and `src/processor.py`.  External effects (HTTP fetches,
LLM completions) are modelled by explicit oracles: a fetch function for the
Reddit collector, and a per-attempt outcome function for the LLM call.
-/

namespace AINews

/-- The `NewsItem` dataclass from `src/collector.py`.  Raw attributes are
populated by collectors; the remaining fields are the processed ("derived")
fields, carrying the same defaults as the dataclass. -/
structure NewsItem where
  title : String
  url : String
  source : String
  original_id : String
  content_snippet : String := ""
  score : Int := 0
  comments_count : Int := 0
  zh_title : Option String := none
  summary : Option String := none
  key_points : List String := []
  category : Option String := none
  tags : List String := []
  ai_score : Int := 0
deriving DecidableEq

/-- Python's `str.lower()` (over the character sets appearing here, where
only ASCII letters have case), written over the character list so that it
computes by kernel reduction. -/
def pyLower (s : String) : String :=
  String.mk (s.data.map Char.toLower)

/-- Python's `s[:n]` on strings, written over the character list. -/
def pyTake (s : String) (n : Nat) : String :=
  String.mk (s.data.take n)

/-- Python's `needle in hay` on strings: `needle` is a contiguous substring
of `hay`. -/
def pyStrIn (needle hay : String) : Bool :=
  decide (List.IsInfix needle.data hay.data)

/-- The `AI_KEYWORDS` list from `src/collector.py`. -/
def AI_KEYWORDS : List String := [
  "AI", "Artificial Intelligence", "人工智能",
  "LLM", "Large Language Model", "大语言模型", "大模型",
  "GPT", "ChatGPT", "Claude", "Gemini", "Llama", "Mistral", "Qwen", "通义", "文心",
  "OpenAI", "Anthropic", "DeepMind", "Google AI", "Meta AI", "Baidu AI", "百度", "阿里", "Alibaba",
  "Transformer", "Diffusion", "Generative", "Neural Network", "神经网络",
  "Machine Learning", "Deep Learning", "机器学习", "深度学习",
  "Computer Vision", "NLP", "Natural Language", "自然语言",
  "Reinforcement Learning", "强化学习",
  "RAG", "Agent", "Embedding", "Fine-tuning", "微调", "Prompt",
  "Text-to-Image", "Image Generation", "Video Generation", "AIGC",
  "Chatbot", "Virtual Assistant", "AI编程", "Copilot", "Code Generation",
  "arXiv", "Paper", "Model", "Dataset", "Benchmark", "Algorithm"]

/-- `is_ai_related` from `src/collector.py`:
`text = (title + " " + content).lower()` followed by
`any(keyword.lower() in text for keyword in AI_KEYWORDS)`. -/
def is_ai_related (title : String) (content : String := "") : Bool :=
  let text := pyLower (title ++ " " ++ content)
  AI_KEYWORDS.any (fun keyword => pyStrIn (pyLower keyword) text)

/-- One step of the Python dict comprehension `{item.url: item for item in
news_items}`: inserting an item whose key (`url`) is already present
overwrites the stored value in place (keys keep their first-insertion
position); a fresh key is appended at the end. -/
def dedupInsert (acc : List NewsItem) (item : NewsItem) : List NewsItem :=
  if acc.any (fun x => x.url == item.url) then
    acc.map (fun x => if x.url == item.url then item else x)
  else
    acc ++ [item]

/-- `list({item.url: item for item in news_items}.values())` from
`RedditCollector.collect` in `src/collector.py`: last-wins URL dedup with
first-insertion key order. -/
def dedup (news_items : List NewsItem) : List NewsItem :=
  news_items.foldl dedupInsert []

/-- One Reddit submission, as consumed by `RedditCollector.collect` in
`src/collector.py` (the fields the code reads off a praw submission). -/
structure Submission where
  title : String
  url : String
  id : String
  selftext : String := ""
  stickied : Bool := false
  score : Int := 0
  num_comments : Int := 0
deriving DecidableEq

/-- The per-submission body of the loop in `RedditCollector.collect`:
skip stickied posts, skip titles containing "question" or "help"
(lower-cased), apply the AI keyword filter to title plus the first 1000
characters of the selftext, and build the `NewsItem`. -/
def mkRedditItem (sub_name : String) (s : Submission) : Option NewsItem :=
  if s.stickied then none
  else if pyStrIn "question" (pyLower s.title) || pyStrIn "help" (pyLower s.title) then none
  else
    let content := if s.selftext = "" then "" else pyTake s.selftext 1000
    if is_ai_related s.title content then
      some { title := s.title, url := s.url, source := "Reddit/" ++ sub_name,
             original_id := s.id, content_snippet := content,
             score := s.score, comments_count := s.num_comments }
    else none

/-- The `for sub_name in self.subreddits` loop of `RedditCollector.collect`.
The whole loop sits inside a single `try`: a raised fetch error for one
community escapes the loop to the handler, which only logs — so iteration
stops and the items accumulated so far are what survives.  `fetch` is the
oracle for `subreddit.top(time_filter="day", limit=5)`. -/
def collectLoop (fetch : String → Except String (List Submission)) :
    List String → List NewsItem → List NewsItem
  | [], acc => acc
  | sub_name :: rest, acc =>
    match fetch sub_name with
    | .error _ => acc
    | .ok subs => collectLoop fetch rest (acc ++ subs.filterMap (mkRedditItem sub_name))

/-- `RedditCollector.collect` from `src/collector.py`: run the guarded loop
over the configured communities, then apply the URL dedup. -/
def redditCollect (fetch : String → Except String (List Submission))
    (subreddits : List String) : List NewsItem :=
  dedup (collectLoop fetch subreddits [])

/-- The parsed JSON object a successful LLM call yields, after code-fence
stripping and `json.loads`.  Each field is optional, matching `data.get`
with a default in `AIProcessor.process_item`. -/
structure LLMData where
  zh_title : Option String := none
  summary : Option String := none
  key_points : Option (List String) := none
  category : Option String := none
  tags : Option (List String) := none
  score : Option Int := none
deriving DecidableEq

/-- Outcome of one LLM attempt: `fail` is any exception inside the `try`
(network error, timeout, malformed JSON); `ok` is a parsed JSON object. -/
inductive LLMResult where
  | fail : LLMResult
  | ok : LLMData → LLMResult
deriving DecidableEq

/-- The success branch of `AIProcessor.process_item`: each derived field is
`data.get(key, default)`. -/
def applySuccess (data : LLMData) (item : NewsItem) : NewsItem :=
  { item with
    zh_title := some (data.zh_title.getD item.title),
    summary := some (data.summary.getD ""),
    key_points := data.key_points.getD [],
    category := some (data.category.getD "其他"),
    tags := data.tags.getD [],
    ai_score := data.score.getD 3 }

/-- The `except` branch of `AIProcessor.process_item`: degrade in place.
(`tags` is not assigned in this branch.) -/
def applyFailure (item : NewsItem) : NewsItem :=
  { item with
    zh_title := some item.title,
    summary := some "AI 处理失败，请查看原文。",
    key_points := [],
    category := some "⚠️ 未分类",
    ai_score := 1 }

/-- The body of `AIProcessor.process_item` (what one invocation by the
tenacity wrapper does): return the item unchanged if the title is empty;
otherwise run the `try`, whose `except Exception` clause catches every
failure and degrades the item.  The body therefore never raises — it always
returns `Except.ok`. -/
def process_item_body (outcome : LLMResult) (item : NewsItem) : Except Unit NewsItem :=
  if item.title = "" then .ok item
  else
    match outcome with
    | .ok data => .ok (applySuccess data item)
    | .fail => .ok (applyFailure item)

/-- The tenacity `@retry(stop=stop_after_attempt(3), wait=wait_fixed(2))`
wrapper: call the body; on a raised exception, retry while attempts remain,
re-raising after the last one.  `outcomes n` is the oracle for the LLM
interaction of attempt `n`; the second component counts attempts consumed. -/
def retryGo (body : LLMResult → Except Unit NewsItem) (outcomes : Nat → LLMResult) :
    Nat → Nat → Except Unit NewsItem × Nat
  | 0, i => (.error (), i)
  | fuel + 1, i =>
    match body (outcomes i) with
    | .ok r => (.ok r, i + 1)
    | .error e => if fuel = 0 then (.error e, i + 1) else retryGo body outcomes fuel (i + 1)

/-- The decorated `AIProcessor.process_item` with its attempt counter:
tenacity allows 3 attempts in total. -/
def process_item_ex (outcomes : Nat → LLMResult) (item : NewsItem) :
    Except Unit NewsItem × Nat :=
  retryGo (fun o => process_item_body o item) outcomes 3 0

/-- The decorated `AIProcessor.process_item` as called by `process_batch`.
(The `.error` arm is unreachable: the body never raises, see
`process_item_total`.) -/
def process_item (outcomes : Nat → LLMResult) (item : NewsItem) : NewsItem :=
  match process_item_ex outcomes item with
  | (.ok r, _) => r
  | (.error _, _) => item

/-- `processed_items.sort(key=lambda x: x.ai_score, reverse=True)` from
`AIProcessor.process_batch`: Python's `list.sort` is stable, and
`reverse=True` keeps the original relative order of equal keys, so the step
is THE stable descending sort by `ai_score` — realised here by Mathlib's
stable `insertionSort` under `a.ai_score ≥ b.ai_score`. -/
def rank (items : List NewsItem) : List NewsItem :=
  List.insertionSort (fun a b => b.ai_score ≤ a.ai_score) items

/-- `AIProcessor.process_batch`: `executor.map(self.process_item, items)`
yields one result per input in input order (modelled with a per-position
oracle `oracle i` for the LLM attempts of item `i`), then the list is sorted
by score. -/
def process_batch (oracle : Nat → Nat → LLMResult) (items : List NewsItem) : List NewsItem :=
  rank (items.enum.map (fun p => process_item (oracle p.1) p.2))

/-! Concrete fixtures used by counterexamples and witnesses. -/

/-- A typical collected item (relevant title, raw fields only). -/
def exItem : NewsItem :=
  { title := "AI", url := "http://x", source := "HN", original_id := "1" }

/-- An item with an empty title, exactly as a collector would hand it to the
processor (derived fields at their dataclass defaults, `ai_score = 0`). -/
def emptyTitleItem : NewsItem :=
  { title := "", url := "http://y", source := "HN", original_id := "2" }

/-- A well-formed parsed response. -/
def goodData : LLMData :=
  { zh_title := some "人工智能新闻", summary := some "摘要",
    key_points := some ["要点"], category := some "🔬 学术研究",
    tags := some ["LLM"], score := some 4 }

/-- A parsed response whose `score` field is present but out of range. -/
def overScoreData : LLMData := { score := some 10 }

/-- LLM oracle: every attempt raises. -/
def allFail : Nat → LLMResult := fun _ => LLMResult.fail

/-- LLM oracle: the first attempt raises, every later attempt returns a
well-formed response. -/
def failThenOk : Nat → LLMResult :=
  fun n => if n = 0 then LLMResult.fail else LLMResult.ok goodData

/-- A relevant, non-stickied submission in community "B". -/
def exSubB : Submission := { title := "AI", url := "http://x", id := "s1" }

/-- Fetch oracle: community "B" yields one relevant submission, every other
community raises. -/
def exFetch : String → Except String (List Submission) :=
  fun s => if s = "B" then .ok [exSubB] else .error "boom"

/-- The item `mkRedditItem "B" exSubB` produces. -/
def exRedditItemB : NewsItem :=
  { title := "AI", url := "http://x", source := "Reddit/B", original_id := "s1" }

/-- Enriched items with scores 3, 5, 1, 5 at original indices 0, 1, 2, 3. -/
def r0 : NewsItem := { title := "a", url := "u0", source := "HN", original_id := "0", ai_score := 3 }

/-- Original index 1, score 5. -/
def r1 : NewsItem := { title := "b", url := "u1", source := "HN", original_id := "1", ai_score := 5 }

/-- Original index 2, score 1. -/
def r2 : NewsItem := { title := "c", url := "u2", source := "HN", original_id := "2", ai_score := 1 }

/-- Original index 3, score 5. -/
def r3 : NewsItem := { title := "d", url := "u3", source := "HN", original_id := "3", ai_score := 5 }

/-- What one invocation of the `process_item` body computes, as a value
(`process_item_body` always returns this under `Except.ok`). -/
def process_item_once (outcome : LLMResult) (item : NewsItem) : NewsItem :=
  if item.title = "" then item
  else
    match outcome with
    | .ok data => applySuccess data item
    | .fail => applyFailure item

/-- First-result-or-second on optional items (Python's `or` on the results
of ordered lookups); used to state the dedup lookup lemmas. -/
def optOr : Option NewsItem → Option NewsItem → Option NewsItem
  | some x, _ => some x
  | none, y => y

/-- Lookup of the unique item carrying url `u` (first match in list order). -/
def findUrl (l : List NewsItem) (u : String) : Option NewsItem :=
  l.find? (fun x => x.url == u)

/-- No two items of the list share a `url`. -/
def UrlDistinct (l : List NewsItem) : Prop :=
  l.Pairwise (fun a b => a.url ≠ b.url)

/-! Helper lemmas about the enrichment step. -/

/-- The `try`/`except` body of `process_item` never raises: every outcome,
including a raised LLM exception, is converted into a normal return. -/
theorem process_item_body_eq (outcome : LLMResult) (item : NewsItem) :
    process_item_body outcome item = .ok (process_item_once outcome item) := by
  unfold process_item_body process_item_once
  by_cases h : item.title = ""
  · simp [h]
  · simp only [h, if_false]
    cases outcome <;> rfl

/-- Because the body never raises, the tenacity wrapper returns after the
first attempt, using only `outcomes 0`. -/
theorem process_item_ex_eq (outcomes : Nat → LLMResult) (item : NewsItem) :
    process_item_ex outcomes item = (.ok (process_item_once (outcomes 0) item), 1) := by
  unfold process_item_ex
  rw [show (3 : Nat) = 2 + 1 from rfl, retryGo, process_item_body_eq]

/-- Closed form of the decorated `process_item`. -/
theorem process_item_eq (outcomes : Nat → LLMResult) (item : NewsItem) :
    process_item outcomes item = process_item_once (outcomes 0) item := by
  unfold process_item
  rw [process_item_ex_eq]

/-- C1 (counterexample): the claim "process_item always returns ai_score in
[1,5], including items whose title is empty and responses whose score field
is out of range" is false at two explicit inputs: an empty-title item is
returned unchanged with `ai_score = 0`, and a parsed response carrying
`score = 10` is stored as-is. -/
theorem c1_counterexample :
    ¬ (1 ≤ (process_item allFail emptyTitleItem).ai_score ∧
        (process_item allFail emptyTitleItem).ai_score ≤ 5) ∧
    ¬ (1 ≤ (process_item (fun _ => LLMResult.ok overScoreData) exItem).ai_score ∧
        (process_item (fun _ => LLMResult.ok overScoreData) exItem).ai_score ≤ 5) := by
  decide

/-- C1 (amended): for every item with a non-empty title, and any sequence of
LLM outcomes whose successful first response either omits `score` or carries
an integer in [1,5], `process_item` returns an item whose `ai_score` is in
[1,5] — in particular this holds however many upstream failures occur, since
a failing attempt yields score 1. -/
theorem c1_enrichment_score_range (outcomes : Nat → LLMResult) (item : NewsItem)
    (ht : item.title ≠ "")
    (hs : ∀ data s, outcomes 0 = .ok data → data.score = some s → 1 ≤ s ∧ s ≤ 5) :
    1 ≤ (process_item outcomes item).ai_score ∧ (process_item outcomes item).ai_score ≤ 5 := by
  rw [process_item_eq]
  unfold process_item_once
  rw [if_neg ht]
  cases h : outcomes 0 with
  | fail => exact ⟨le_refl 1, by norm_num [applyFailure]⟩
  | ok data =>
    cases hsc : data.score with
    | none => simp [applySuccess, hsc]
    | some s =>
      have hrange := hs data s h hsc
      simpa [applySuccess, hsc] using hrange

/-- C1 (witness): instance of `c1_enrichment_score_range` at `exItem` with
every attempt failing. -/
theorem c1_enrichment_score_range_witness :
    exItem.title ≠ "" ∧
    (1 ≤ (process_item allFail exItem).ai_score ∧
      (process_item allFail exItem).ai_score ≤ 5) :=
  ⟨by decide,
    c1_enrichment_score_range allFail exItem (by decide)
      (fun d s h _ => absurd h (by simp [allFail]))⟩

/-- C2 (code evaluated at the failing input): on an item whose first LLM
attempt raises and whose second attempt would return a well-formed response,
the decorated `process_item` consumes exactly one attempt and returns the
degraded item — the catch-all `except` inside the body swallows the
exception, so the tenacity retry (3 attempts, 2s fixed wait) never fires,
even though a second attempt would have succeeded. -/
theorem c2_no_retry_on_failure :
    process_item_ex failThenOk exItem = (Except.ok (applyFailure exItem), 1) ∧
    process_item_body (failThenOk 1) exItem = Except.ok (applySuccess goodData exItem) :=
  ⟨rfl, rfl⟩

/-- C7: an item whose enrichment ends in the failure branch carries the
sentinel category "⚠️ 未分类" and `ai_score = 1`; a successful response that
omits the category is assigned the distinct default "其他", so the two
outcomes are distinguishable by category alone. -/
theorem c7_fallback_distinguishable (outcomes : Nat → LLMResult) (item : NewsItem)
    (data : LLMData) (ht : item.title ≠ "") :
    (outcomes 0 = .fail →
      (process_item outcomes item).category = some "⚠️ 未分类" ∧
      (process_item outcomes item).ai_score = 1) ∧
    (outcomes 0 = .ok data → data.category = none →
      (process_item outcomes item).category = some "其他") ∧
    ("⚠️ 未分类" : String) ≠ "其他" := by
  refine ⟨?_, ?_, by decide⟩
  · intro h
    rw [process_item_eq, h]
    unfold process_item_once
    rw [if_neg ht]
    exact ⟨rfl, rfl⟩
  · intro h hcat
    rw [process_item_eq, h]
    unfold process_item_once
    rw [if_neg ht]
    simp [applySuccess, hcat]

/-- C7 (witness): instance of `c7_fallback_distinguishable` at `exItem` with
every attempt failing. -/
theorem c7_fallback_distinguishable_witness :
    exItem.title ≠ "" ∧
    (process_item allFail exItem).category = some "⚠️ 未分类" ∧
    (process_item allFail exItem).ai_score = 1 :=
  have h := c7_fallback_distinguishable allFail exItem {} (by decide)
  ⟨by decide, (h.1 rfl).1, (h.1 rfl).2⟩

/-- C9: the enrichment step leaves every raw attribute (`title`, `url`,
`source`, `original_id`, `content_snippet`, `score`, `comments_count`)
unchanged, on the empty-title path, the success path and the failure path
alike; only derived fields are written. -/
theorem c9_raw_fields_preserved (outcomes : Nat → LLMResult) (item : NewsItem) :
    (process_item outcomes item).title = item.title ∧
    (process_item outcomes item).url = item.url ∧
    (process_item outcomes item).source = item.source ∧
    (process_item outcomes item).original_id = item.original_id ∧
    (process_item outcomes item).content_snippet = item.content_snippet ∧
    (process_item outcomes item).score = item.score ∧
    (process_item outcomes item).comments_count = item.comments_count := by
  rw [process_item_eq]
  unfold process_item_once
  by_cases h : item.title = ""
  · simp [h]
  · rw [if_neg h]
    cases outcomes 0 <;> simp [applySuccess, applyFailure]

/-! Helper lemmas about the URL dedup. -/

theorem optOr_none_right (x : Option NewsItem) : optOr x none = x := by
  cases x <;> rfl

theorem optOr_assoc (x y z : Option NewsItem) :
    optOr (optOr x y) z = optOr x (optOr y z) := by
  cases x <;> rfl

theorem findUrl_cons (a : NewsItem) (l : List NewsItem) (u : String) :
    findUrl (a :: l) u = if a.url == u then some a else findUrl l u := by
  by_cases h : (a.url == u) = true
  · rw [if_pos h]
    exact List.find?_cons_of_pos _ h
  · rw [if_neg h]
    exact List.find?_cons_of_neg _ h

theorem findUrl_singleton (a : NewsItem) (u : String) :
    findUrl [a] u = if a.url == u then some a else none :=
  findUrl_cons a [] u

theorem findUrl_append (l₁ l₂ : List NewsItem) (u : String) :
    findUrl (l₁ ++ l₂) u = optOr (findUrl l₁ u) (findUrl l₂ u) := by
  induction l₁ with
  | nil => rfl
  | cons a l ih =>
    rw [List.cons_append, findUrl_cons, findUrl_cons, ih]
    cases h : (a.url == u) <;> simp [optOr]

theorem findUrl_eq_none (acc : List NewsItem) (u : String)
    (h : ∀ x ∈ acc, x.url ≠ u) : findUrl acc u = none := by
  rw [findUrl, List.find?_eq_none]
  intro x hx
  simpa using h x hx

/-- Overwriting the stored value for a present key keeps exactly one entry
for that key, holding the new item. -/
theorem findUrl_map_overwrite (acc : List NewsItem) (a : NewsItem)
    (h : ∃ x ∈ acc, x.url = a.url) :
    findUrl (acc.map (fun x => if x.url == a.url then a else x)) a.url = some a := by
  induction acc with
  | nil => simp at h
  | cons b l ih =>
    rw [List.map_cons, findUrl_cons]
    by_cases hb : (b.url == a.url) = true
    · rw [if_pos hb, if_pos (beq_self_eq_true a.url)]
    · rw [if_neg hb, if_neg hb]
      apply ih
      rcases h with ⟨x, hx, hurl⟩
      rcases List.mem_cons.mp hx with rfl | hxl
      · exact absurd (beq_iff_eq.mpr hurl) hb
      · exact ⟨x, hxl, hurl⟩

/-- Overwriting the value of key `a.url` does not affect lookups of other
keys. -/
theorem findUrl_map_other (acc : List NewsItem) (a : NewsItem) (u : String)
    (hu : u ≠ a.url) :
    findUrl (acc.map (fun x => if x.url == a.url then a else x)) u = findUrl acc u := by
  induction acc with
  | nil => rfl
  | cons b l ih =>
    rw [List.map_cons, findUrl_cons, findUrl_cons]
    by_cases hb : (b.url == a.url) = true
    · have h1 : (a.url == u) = false := beq_eq_false_iff_ne.mpr (fun e => hu e.symm)
      have h2 : (b.url == u) = false := by
        rw [beq_iff_eq.mp hb]
        exact h1
      rw [if_pos hb, h1, h2]
      simpa using ih
    · rw [if_neg hb]
      by_cases hbu : (b.url == u) = true
      · rw [if_pos hbu, if_pos hbu]
      · rw [if_neg hbu, if_neg hbu]
        exact ih

theorem findUrl_dedupInsert_self (acc : List NewsItem) (a : NewsItem) :
    findUrl (dedupInsert acc a) a.url = some a := by
  unfold dedupInsert
  by_cases hin : acc.any (fun x => x.url == a.url) = true
  · rw [if_pos hin]
    apply findUrl_map_overwrite
    simpa using List.any_eq_true.mp hin
  · rw [if_neg hin, findUrl_append]
    have h1 : findUrl acc a.url = none := by
      apply findUrl_eq_none
      intro x hx hurl
      exact hin (List.any_eq_true.mpr ⟨x, hx, beq_iff_eq.mpr hurl⟩)
    rw [h1, findUrl_singleton, if_pos (beq_self_eq_true a.url)]
    rfl

theorem findUrl_dedupInsert_other (acc : List NewsItem) (a : NewsItem) (u : String)
    (hu : u ≠ a.url) :
    findUrl (dedupInsert acc a) u = findUrl acc u := by
  unfold dedupInsert
  by_cases hin : acc.any (fun x => x.url == a.url) = true
  · rw [if_pos hin]
    exact findUrl_map_other acc a u hu
  · rw [if_neg hin, findUrl_append, findUrl_singleton,
      if_neg (by simpa using fun e => hu e.symm), optOr_none_right]

/-- Lookup after the whole fold: the value stored for `u` is the last
occurrence of `u` in the processed prefix (first match of the reversed
list), falling back to whatever the accumulator held. -/
theorem findUrl_foldl (l : List NewsItem) :
    ∀ (acc : List NewsItem) (u : String),
      findUrl (l.foldl dedupInsert acc) u = optOr (findUrl l.reverse u) (findUrl acc u) := by
  induction l with
  | nil => intro acc u; rfl
  | cons a l ih =>
    intro acc u
    rw [List.foldl_cons, ih, List.reverse_cons, findUrl_append, optOr_assoc]
    congr 1
    by_cases hu : u = a.url
    · subst hu
      rw [findUrl_dedupInsert_self, findUrl_singleton, if_pos (beq_self_eq_true a.url)]
      rfl
    · rw [findUrl_dedupInsert_other _ _ _ hu, findUrl_singleton,
        if_neg (by simpa using fun e => hu e.symm)]
      rfl

/-- Inserting into an accumulator with pairwise-distinct urls keeps the
urls pairwise distinct. -/
theorem dedupInsert_pairwise {acc : List NewsItem} (h : UrlDistinct acc) (a : NewsItem) :
    UrlDistinct (dedupInsert acc a) := by
  unfold dedupInsert
  by_cases hin : acc.any (fun x => x.url == a.url) = true
  · rw [if_pos hin]
    rw [UrlDistinct, List.pairwise_map]
    refine h.imp fun {x y} hxy => ?_
    by_cases hx : (x.url == a.url) = true <;> by_cases hy : (y.url == a.url) = true
    · rw [if_pos hx, if_pos hy]
      exact absurd ((beq_iff_eq.mp hx).trans (beq_iff_eq.mp hy).symm) hxy
    · rw [if_pos hx, if_neg hy]
      exact (beq_iff_eq.mp hx) ▸ hxy
    · rw [if_neg hx, if_pos hy]
      exact fun e => hx (beq_iff_eq.mpr e)
    · rw [if_neg hx, if_neg hy]
      exact hxy
  · rw [if_neg hin]
    rw [UrlDistinct, List.pairwise_append]
    refine ⟨h, by simp, ?_⟩
    intro x hx y hy
    rw [List.mem_singleton] at hy
    subst hy
    intro hurl
    exact hin (List.any_eq_true.mpr ⟨x, hx, beq_iff_eq.mpr hurl⟩)

theorem foldl_dedupInsert_pairwise (l : List NewsItem) :
    ∀ acc : List NewsItem, UrlDistinct acc → UrlDistinct (l.foldl dedupInsert acc) := by
  induction l with
  | nil => intro acc h; exact h
  | cons a l ih =>
    intro acc h
    rw [List.foldl_cons]
    exact ih _ (dedupInsert_pairwise h a)

theorem dedup_pairwise (items : List NewsItem) : UrlDistinct (dedup items) :=
  foldl_dedupInsert_pairwise items [] List.Pairwise.nil

theorem dedup_findUrl (items : List NewsItem) (u : String) :
    findUrl (dedup items) u = findUrl items.reverse u := by
  rw [dedup, findUrl_foldl]
  exact optOr_none_right _

/-- Folding fresh items (urls disjoint from the accumulator, pairwise
distinct among themselves) just appends them. -/
theorem foldl_dedupInsert_of_fresh (l : List NewsItem) :
    ∀ acc : List NewsItem, (∀ x ∈ acc, ∀ y ∈ l, x.url ≠ y.url) → UrlDistinct l →
      l.foldl dedupInsert acc = acc ++ l := by
  induction l with
  | nil => intro acc _ _; simp
  | cons a l ih =>
    intro acc hdisj hl
    have hany : acc.any (fun x => x.url == a.url) = false := by
      cases hc : acc.any (fun x => x.url == a.url) with
      | false => rfl
      | true =>
        obtain ⟨x, hx, hbeq⟩ := List.any_eq_true.mp hc
        exact absurd (beq_iff_eq.mp hbeq) (hdisj x hx a (List.mem_cons_self a l))
    have hins : dedupInsert acc a = acc ++ [a] := by
      rw [dedupInsert, hany]
      rfl
    obtain ⟨hhead, htail⟩ := List.pairwise_cons.mp hl
    rw [List.foldl_cons, hins, ih (acc ++ [a]) ?_ htail]
    · simp
    · intro x hx y hy
      rcases List.mem_append.mp hx with hxa | hxs
      · exact hdisj x hxa y (List.mem_cons_of_mem a hy)
      · rw [List.mem_singleton] at hxs
        subst hxs
        exact hhead y hy

theorem dedup_of_distinct (l : List NewsItem) (h : UrlDistinct l) : dedup l = l := by
  rw [dedup]
  simpa using foldl_dedupInsert_of_fresh l [] (by simp) h

/-- C3: the dedup step produces a list in which no two items share a `url`,
and the item stored for a url `u` (the unique match of the lookup) is the
last occurrence of `u` in input iteration order — the first match of the
reversed input. -/
theorem c3_dedup_last_wins (items : List NewsItem) :
    UrlDistinct (dedup items) ∧
    ∀ u : String, findUrl (dedup items) u = findUrl items.reverse u :=
  ⟨dedup_pairwise items, fun u => dedup_findUrl items u⟩

/-- C8: the dedup step is idempotent. -/
theorem c8_dedup_idempotent (items : List NewsItem) :
    dedup (dedup items) = dedup items :=
  dedup_of_distinct _ (dedup_pairwise items)

/-- C4: `is_ai_related` returns true iff at least one keyword of
`AI_KEYWORDS` is, case-insensitively (both sides lowercased, as the code
does), a contiguous substring of `title + " " + content`; in particular it
returns false for any text containing none of the keywords. -/
theorem c4_filter_iff (title content : String) :
    is_ai_related title content = true ↔
      ∃ keyword ∈ AI_KEYWORDS,
        List.IsInfix (pyLower keyword).data (pyLower (title ++ " " ++ content)).data := by
  rw [is_ai_related, List.any_eq_true]
  simp only [pyStrIn, decide_eq_true_eq]

/-! Helper lemma for the Reddit collector. -/

/-- A fetch failure escapes the loop: everything after the failing community
is never visited, whatever was accumulated up to it is returned. -/
theorem collectLoop_stops (fetch : String → Except String (List Submission))
    (b e : String) (hb : fetch b = .error e) (post : List String) :
    ∀ (pre : List String) (acc : List NewsItem),
      collectLoop fetch (pre ++ b :: post) acc = collectLoop fetch pre acc := by
  intro pre
  induction pre with
  | nil =>
    intro acc
    rw [List.nil_append]
    show collectLoop fetch (b :: post) acc = acc
    rw [collectLoop, hb]
  | cons s rest ih =>
    intro acc
    rw [List.cons_append, collectLoop, collectLoop]
    cases h : fetch s with
    | error e2 => rfl
    | ok subs => exact ih _

/-- C5 (counterexample): with a fetch oracle that raises for community "A"
and returns one relevant submission for community "B", collecting over
`["A", "B"]` yields nothing — the item from the non-failing community "B",
which collecting over `["B"]` alone does produce, does not appear. -/
theorem c5_counterexample :
    exRedditItemB ∈ redditCollect exFetch ["B"] ∧
    exRedditItemB ∉ redditCollect exFetch ["A", "B"] := by
  decide

/-- C5 (amended): a community-level fetch failure is caught (the collector
returns normally), but it aborts the iteration instead of continuing:
the result for a community list `pre ++ [b] ++ post` with `b` failing is
exactly the result for `pre` — communities after the failing one contribute
nothing, and only items gathered before the failure survive (deduplicated). -/
theorem c5_failure_truncates (fetch : String → Except String (List Submission))
    (pre post : List String) (b e : String) (hb : fetch b = .error e) :
    redditCollect fetch (pre ++ b :: post) = redditCollect fetch pre := by
  rw [redditCollect, redditCollect, collectLoop_stops fetch b e hb post pre]

/-- C5 (witness): instance of `c5_failure_truncates` with `exFetch`,
`pre = ["B"]`, failing community "A". -/
theorem c5_failure_truncates_witness :
    exFetch "A" = Except.error "boom" ∧
    redditCollect exFetch (["B"] ++ "A" :: []) = redditCollect exFetch ["B"] :=
  ⟨rfl, c5_failure_truncates exFetch ["B"] [] "A" "boom" rfl⟩

/-- C6: the ranking step is the stable descending sort by `ai_score`: on
items with scores `[3, 5, 1, 5]` at original indices `[0, 1, 2, 3]` it
returns the items in index order `[1, 3, 0, 2]` (score descending, original
index ascending as tie-break). -/
theorem c6_rank_concrete : rank [r0, r1, r2, r3] = [r1, r3, r0, r2] := by
  decide

/-- C10: the batch enrichment returns a list of exactly the same length as
its input, and its elements are exactly the per-item enrichment results of
the inputs — a permutation of them under the final sort — for every oracle,
in particular when every enrichment call fails. -/
theorem c10_batch_complete (oracle : Nat → Nat → LLMResult) (items : List NewsItem) :
    (process_batch oracle items).length = items.length ∧
    (process_batch oracle items).Perm
      (items.enum.map (fun p => process_item (oracle p.1) p.2)) := by
  have hperm : (process_batch oracle items).Perm
      (items.enum.map (fun p => process_item (oracle p.1) p.2)) :=
    List.perm_insertionSort _ _
  refine ⟨?_, hperm⟩
  rw [hperm.length_eq, List.length_map, List.enum_length]

end AINews
